import Mathlib

/-
Verification development for the CryoSIM experiment planner
(`cockpit/experiment/cryosim.py`) and the microscope stage-axis timing
oracle (`cockpit/devices/microscopeDevice.py`).

Times are modelled as exact rationals (the source uses `decimal.Decimal`
for scheduling arithmetic).  Fallible operations return `Option`.
-/

namespace Cockpit

/-- A controllable resource targeted by a scheduled action: a camera, a
light source, the Z stage positioner, or an analog pattern-generator
client (SLM / rotor executor client). -/
inductive Resource where
  | camera (id : ℕ)
  | light (id : ℕ)
  | zPos
  | analogClient (id : ℕ)
  deriving DecidableEq

/-- The action parameter recorded in an `ActionTable` entry.  In the source
the parameter of `table.addAction` is a Z target (a position), a boolean
digital trigger, a sequence index handed to an analog client, or a camera
reset. -/
inductive Payload where
  | moveAbsolute (pos : ℚ)
  | setDigital (b : Bool)
  | indexSignal (i : ℕ)
  | reset
  deriving DecidableEq

/-- One row of the action table: `(timestamp, target resource, payload)`. -/
structure ActionEntry where
  time : ℚ
  target : Resource
  payload : Payload
  deriving DecidableEq

/-- The action table is an append-only ledger of entries, kept in append
order. -/
abbrev ActionTable := List ActionEntry

/-- Modelled from the spec: `ActionTable.append` (the source calls it
`table.addAction(time, handler, parameter)`; the `ActionTable` class itself
is outside the provided sources).  It appends one immutable entry at the
end of the ledger.  The `OutOfOrder` defensive condition of the spec is
proved unreachable for the tables built here (see the per-resource
monotonicity theorem), so the append is modelled as total. -/
def addAction (t : ActionTable) (time : ℚ) (target : Resource) (p : Payload) :
    ActionTable :=
  t ++ [⟨time, target, p⟩]

/-- Timestamp of the last entry of the table targeting `r`, if any. -/
def lastActionTimeFor (table : ActionTable) (r : Resource) : Option ℚ :=
  ((table.filter (fun e => e.target == r)).getLast?).map ActionEntry.time

/-- A camera resource together with the timing-oracle answers used by the
planner: `getExposureTime()`, `getTimeBetweenExposures()`, the
`cameraToIsReady` flag, and the reset duration used by the (spec-modelled)
reset phase. -/
structure CameraSpec where
  id : ℕ
  exposureTime : ℚ
  timeBetweenExposures : ℚ
  isReady : Bool
  resetDuration : ℚ
  deriving DecidableEq

/-- Modelled from the spec: `Experiment.getTimeWhenCameraCanExpose(table,
camera)` (base-class code outside the provided sources).  Per the spec's
`earliest_available`: the timestamp of the last entry scheduled against the
camera plus the camera's own busy duration (exposure plus inter-exposure
gap), or zero when the camera has no prior entries. -/
def getTimeWhenCameraCanExpose (table : ActionTable) (cam : CameraSpec) : ℚ :=
  ((lastActionTimeFor table (Resource.camera cam.id)).map
    (fun t => t + cam.exposureTime + cam.timeBetweenExposures)).getD 0

/-- Modelled from the spec: `Experiment.resetCams(curTime, cameras, table)`
(base-class code outside the provided sources).  Per the spec's reset
phase: emit a reset/arm action at time 0 for every camera to reset, and
advance the cursor past the reset duration reported by the oracle. -/
def resetCams (curTime : ℚ) (cams : List CameraSpec) (table : ActionTable) :
    ℚ × ActionTable :=
  let table := cams.foldl
    (fun t cam => addAction t 0 (Resource.camera cam.id) Payload.reset) table
  let cur := cams.foldl
    (fun c cam => if c < cam.resetDuration then cam.resetDuration else c) curTime
  (cur, table)

/-- The Z stage positioner handler: only its `getMovementTime(from, to)`
callback is consulted by the planner; it answers `(moveTime, settleTime)`. -/
structure Positioner where
  movementTime : ℚ → ℚ → ℚ × ℚ

/-- The experiment state read by `CryoSIM.generateActions`: camera set,
light set, the angle/phase sequence, the analog clients of the optional SLM
and rotor executor handlers, the optional Z positioner, Z geometry, the
repetition count and the exposure settings consulted by the return
phase. -/
structure Plan where
  cameras : List CameraSpec
  lights : List ℕ
  sequence : List (ℚ × ℚ)
  slmClients : Option (List ℕ)
  rotorClients : Option (List ℕ)
  zPositioner : Option Positioner
  zStart : ℚ
  zHeight : ℚ
  sliceHeight : ℚ
  numReps : ℕ
  exposureSettings : List (List CameraSpec)

/-- The angle/phase sequence built by `CryoSIM.__init__`: for each of
`numAngles` angle indices and `numPhases` phase indices, the pair
`(i * 180 / numAngles, j * 360 / numPhases)`. -/
def mkSequence (numAngles numPhases : ℕ) : List (ℚ × ℚ) :=
  ((List.range numAngles).map (fun i =>
    (List.range numPhases).map (fun j =>
      ((i : ℚ) * 180 / (numAngles : ℚ), (j : ℚ) * 360 / (numPhases : ℚ))))).flatten

/-- `CryoSIM.expose(curTime, cameras, table)`: in one pass over the cameras
it accumulates the largest `exposure + gap` and the largest
`getTimeWhenCameraCanExpose` value (both read before any append), then
appends a digital trigger at `curTime` for every light and for every
camera, increments each triggered camera's image count, and returns
`max(last_ready, curTime + max_acq_time)` together with the new table and
counters. -/
def expose (lights : List ℕ) (curTime : ℚ) (cameras : List CameraSpec)
    (table : ActionTable) (counts : ℕ → ℕ) : ℚ × ActionTable × (ℕ → ℕ) :=
  let acc : ℚ × ℚ := cameras.foldl
    (fun acc cam =>
      let acq := cam.exposureTime + cam.timeBetweenExposures
      let m := if acc.1 < acq then acq else acc.1
      let ready := getTimeWhenCameraCanExpose table cam
      let l := if acc.2 < ready then ready else acc.2
      (m, l))
    (0, 0)
  let table := lights.foldl
    (fun t l => addAction t curTime (Resource.light l) (Payload.setDigital true))
    table
  let table := cameras.foldl
    (fun t cam =>
      addAction t curTime (Resource.camera cam.id) (Payload.setDigital true))
    table
  let counts := cameras.foldl
    (fun f cam => Function.update f cam.id (f cam.id + 1)) counts
  (max acc.2 (curTime + acc.1), table, counts)

/-- The running state threaded through `generateActions`: the cursor time,
the table, the per-camera image counts, the previous altitude of the
Z-slice loop, and the trace of arguments passed to
`zPositioner.getMovementTime` (recorded for specification purposes). -/
structure GenState where
  cur : ℚ
  table : ActionTable
  counts : ℕ → ℕ
  prevAlt : Option ℚ
  zQueries : List (ℚ × ℚ)

/-- One iteration of the per-step loop of `generateActions` at sequence
index `i`: drive every analog client of the SLM and rotor handlers at the
cursor (the source's `len(analogClients) > 0` guard is a no-op, since
folding over an empty client list appends nothing), run `expose`, then add
the fixed 5 ms inter-trigger delay. -/
def seqStep (p : Plan) (st : GenState) (i : ℕ) : GenState :=
  let table :=
    match p.slmClients with
    | some clients => clients.foldl
        (fun t c => addAction t st.cur (Resource.analogClient c) (Payload.indexSignal i))
        st.table
    | none => st.table
  let table :=
    match p.rotorClients with
    | some clients => clients.foldl
        (fun t c => addAction t st.cur (Resource.analogClient c) (Payload.indexSignal i))
        table
    | none => table
  let r := expose p.lights st.cur p.cameras table st.counts
  { st with cur := r.1 + 5, table := r.2.1, counts := r.2.2 }

/-- One iteration of the Z-slice loop of `generateActions` at slice index
`zIndex`: compute the target altitude, query the motion oracle when a
previous altitude exists, advance the cursor by the move time, append the
Z move, advance by the settle time, run the per-step loop over the
sequence, and append the redundant Z hold at the final cursor. -/
def sliceIter (p : Plan) (zp : Positioner) (st : GenState) (zIndex : ℕ) :
    GenState :=
  let zTarget := p.zStart + p.sliceHeight * (zIndex : ℚ)
  let mts : ℚ × ℚ × List (ℚ × ℚ) :=
    match st.prevAlt with
    | none => (0, 0, st.zQueries)
    | some prev =>
        let mt := zp.movementTime prev zTarget
        (mt.1, mt.2, st.zQueries ++ [(prev, zTarget)])
  let cur := st.cur + mts.1
  let table := addAction st.table cur Resource.zPos (Payload.moveAbsolute zTarget)
  let cur := cur + mts.2.1
  let st1 : GenState := ⟨cur, table, st.counts, some zTarget, mts.2.2⟩
  let st2 := (List.range p.sequence.length).foldl (seqStep p) st1
  { st2 with
      table := addAction st2.table st2.cur Resource.zPos (Payload.moveAbsolute zTarget) }

/-- The slice count computed at the top of `generateActions`:
`int(np.ceil(zHeight / sliceHeight))`, plus one extra slice whenever
`zHeight > 1e-6`. -/
def numZSlices (p : Plan) : ℕ :=
  (⌈p.zHeight / p.sliceHeight⌉).toNat + (if p.zHeight > 1 / 1000000 then 1 else 0)

/-- The Z-slice loop of `generateActions`: fold `sliceIter` over the slice
indices `0 .. numZSlices - 1`. -/
def runLoop (p : Plan) (zp : Positioner) (st : GenState) : GenState :=
  (List.range (numZSlices p)).foldl (sliceIter p zp) st

/-- The `cameraReadyTime` of the return phase of `generateActions`: when
more than one repetition will run, the maximum over the exposure settings'
cameras of `getTimeWhenCameraCanExpose`; zero otherwise. -/
def cameraReadyTimeOf (p : Plan) (table : ActionTable) : ℚ :=
  if p.numReps > 1 then
    p.exposureSettings.foldl
      (fun m cams => cams.foldl
        (fun m1 cam => max m1 (getTimeWhenCameraCanExpose table cam)) m)
      0
  else 0

/-- The outcome of `generateActions`: the finished table, the per-camera
image counts, and the trace of `getMovementTime` queries. -/
structure GenResult where
  table : ActionTable
  counts : ℕ → ℕ
  zQueries : List (ℚ × ℚ)

/-- The return phase of `generateActions`: query the motion oracle for the
move from `zHeight` to `0`, advance the cursor by the move time, append the
return move targeting `zStart`, and append the final hold at
`max(cursor + settleTime, cameraReadyTime)`. -/
def returnPhase (p : Plan) (zp : Positioner) (st : GenState) : GenResult :=
  let mt := zp.movementTime p.zHeight 0
  let cur := st.cur + mt.1
  let table := addAction st.table cur Resource.zPos (Payload.moveAbsolute p.zStart)
  let ready := cameraReadyTimeOf p table
  let table := addAction table (max (cur + mt.2) ready) Resource.zPos
    (Payload.moveAbsolute p.zStart)
  ⟨table, st.counts, st.zQueries ++ [(p.zHeight, 0)]⟩

/-- The initial state of `generateActions`: cursor 0, empty table, zero
image counts; if some camera is not ready, run the reset phase first. -/
def initState (p : Plan) : GenState :=
  let camsToReset := p.cameras.filter (fun c => !c.isReady)
  if camsToReset.isEmpty then ⟨0, [], fun _ => 0, none, []⟩
  else
    let r := resetCams 0 camsToReset []
    ⟨r.1, r.2, fun _ => 0, none, []⟩

/-- `CryoSIM.generateActions`: reset phase, Z-slice loop, return phase.
The source dereferences `self.zPositioner` (its `getMovementTime` is
called unconditionally by the return phase), so a plan with no Z
positioner cannot complete; this is modelled by returning `none`. -/
def generateActions (p : Plan) : Option GenResult :=
  match p.zPositioner with
  | none => none
  | some zp => some (returnPhase p zp (runLoop p zp (initState p)))

/-- Fold-maximum of a list of times with base 0; for the non-negative time
values of the planner this is the maximum over the list (the accumulator
base matches the source's 0 initialisation). -/
def listMax0 (xs : List ℚ) : ℚ := xs.foldl max 0

/-- Does the entry target a camera resource? -/
def isCameraEntry (e : ActionEntry) : Bool :=
  match e.target with
  | Resource.camera _ => true
  | _ => false

/-- Does the entry target a light resource? -/
def isLightEntry (e : ActionEntry) : Bool :=
  match e.target with
  | Resource.light _ => true
  | _ => false

/-- All entries of the table carry timestamps at most `c`. -/
def timesLE (c : ℚ) (t : ActionTable) : Prop := ∀ e ∈ t, e.time ≤ c

/-- The construction invariant: the table's timestamps are non-decreasing
in append order and all bounded by the cursor `c`. -/
def Inv (c : ℚ) (t : ActionTable) : Prop :=
  t.Pairwise (fun a b => a.time ≤ b.time) ∧ timesLE c t

/- Concrete instances used by counterexamples and witnesses. -/

/-- A motion oracle reporting `(moveTime, settleTime) = (20, 5)` for every
move. -/
def zpC1 : Positioner := ⟨fun _ _ => (20, 5)⟩

/-- Two-slice plan (`zHeight = sliceHeight = 10`) with no cameras, lights
or pattern clients, oracle `zpC1`. -/
def planC1 : Plan :=
  ⟨[], [], [], none, none, some zpC1, 0, 10, 10, 1, []⟩

/-- The table `generateActions` produces for `planC1`. -/
def tblC1 : ActionTable :=
  [⟨0, Resource.zPos, Payload.moveAbsolute 0⟩,
   ⟨0, Resource.zPos, Payload.moveAbsolute 0⟩,
   ⟨20, Resource.zPos, Payload.moveAbsolute 10⟩,
   ⟨25, Resource.zPos, Payload.moveAbsolute 10⟩,
   ⟨45, Resource.zPos, Payload.moveAbsolute 0⟩,
   ⟨50, Resource.zPos, Payload.moveAbsolute 0⟩]

/-- The full result `generateActions` produces for `planC1`. -/
def resC1 : GenResult := ⟨tblC1, fun _ => 0, [(0, 10), (10, 0)]⟩

/-- A camera with exposure 50 ms, inter-exposure gap 10 ms, already
ready. -/
def camC4 : CameraSpec := ⟨0, 50, 10, true, 0⟩

/-- A motion oracle reporting zero move and settle times. -/
def zpC4 : Positioner := ⟨fun _ _ => (0, 0)⟩

/-- The scenario plan: one camera `camC4`, one light, two sequence steps
(`numAngles = 2`, `numPhases = 1`), no pattern clients, no stage motion,
one Z slice obtained with `zHeight = sliceHeight = 1e-6`. -/
def planC4 : Plan :=
  ⟨[camC4], [0], mkSequence 2 1, none, none, some zpC4, 0, 1 / 1000000,
    1 / 1000000, 1, [[camC4]]⟩

/-- The table `generateActions` produces for `planC4`. -/
def tblC4 : ActionTable :=
  [⟨0, Resource.zPos, Payload.moveAbsolute 0⟩,
   ⟨0, Resource.light 0, Payload.setDigital true⟩,
   ⟨0, Resource.camera 0, Payload.setDigital true⟩,
   ⟨65, Resource.light 0, Payload.setDigital true⟩,
   ⟨65, Resource.camera 0, Payload.setDigital true⟩,
   ⟨130, Resource.zPos, Payload.moveAbsolute 0⟩,
   ⟨130, Resource.zPos, Payload.moveAbsolute 0⟩,
   ⟨130, Resource.zPos, Payload.moveAbsolute 0⟩]

/-- The scenario plan taken literally with `zHeight = 0` (as the claim
states it), `sliceHeight = 1`. -/
def planC4bad : Plan :=
  ⟨[camC4], [0], mkSequence 2 1, none, none, some zpC4, 0, 0, 1, 1, [[camC4]]⟩

/-- The table `generateActions` produces for `planC4bad`: only the two
return-phase entries, no triggers at all. -/
def tblC4bad : ActionTable :=
  [⟨0, Resource.zPos, Payload.moveAbsolute 0⟩,
   ⟨0, Resource.zPos, Payload.moveAbsolute 0⟩]

/-- A plan with `zHeight = 0` and `sliceHeight = 1`: the slice loop runs
zero times. -/
def planC3 : Plan :=
  ⟨[], [], [], none, none, some zpC1, 0, 0, 1, 1, []⟩

/-- A motion oracle reporting `(moveTime, settleTime) = (1, 1)` for every
move. -/
def zpC6 : Positioner := ⟨fun _ _ => (1, 1)⟩

/-- A plan with `zStart = 5`, `zHeight = 2`, `sliceHeight = 1`: three
slices at altitudes 5, 6, 7, so the final altitude is 7 and differs from
`zHeight = 2`, and `zStart = 5` differs from 0. -/
def planC6 : Plan :=
  ⟨[], [], [], none, none, some zpC6, 5, 2, 1, 1, []⟩

/-- The table `generateActions` produces for `planC6`. -/
def tblC6 : ActionTable :=
  [⟨0, Resource.zPos, Payload.moveAbsolute 5⟩,
   ⟨0, Resource.zPos, Payload.moveAbsolute 5⟩,
   ⟨1, Resource.zPos, Payload.moveAbsolute 6⟩,
   ⟨2, Resource.zPos, Payload.moveAbsolute 6⟩,
   ⟨3, Resource.zPos, Payload.moveAbsolute 7⟩,
   ⟨4, Resource.zPos, Payload.moveAbsolute 7⟩,
   ⟨5, Resource.zPos, Payload.moveAbsolute 5⟩,
   ⟨6, Resource.zPos, Payload.moveAbsolute 5⟩]

/-- The full result `generateActions` produces for `planC6`. -/
def resC6 : GenResult := ⟨tblC6, fun _ => 0, [(5, 6), (6, 7), (2, 0)]⟩

/-- A plan with no Z positioner resource. -/
def planNoZ : Plan :=
  ⟨[], [], [], none, none, none, 0, 0, 1, 1, []⟩

/-- A concrete mid-loop state whose previous altitude exists, used to
instantiate slice-iteration theorems. -/
def stC1W : GenState := ⟨0, [], fun _ => 0, some 0, []⟩

end Cockpit

namespace MicroscopeStageAxis

/-- The configuration dictionary entries read by
`_MicroscopeStageAxis.getMovementTime`: optional `settlingtime` and
`velocity` values. -/
structure AxisConfig where
  settlingtime : Option ℚ
  velocity : Option ℚ

/-- The wrapped `microscope` stage axis: `hasattr(self._axis, 'velocity')`
is modelled by an optional device-reported velocity. -/
structure StageAxis where
  velocity : Option ℚ

/-- The velocity used by `getMovementTime`: the device-reported axis
velocity when the axis has one, otherwise the configured velocity with
default 1000. -/
def velOf (ax : StageAxis) (cfg : AxisConfig) : ℚ :=
  match ax.velocity with
  | some v => v
  | none => cfg.velocity.getD 1000

/-- `_MicroscopeStageAxis.getMovementTime(axis, start, end)`: the settle
time is the configured `settlingtime` (default 10); the velocity is the
device-reported one when available, else the configured `velocity`
(default 1000); the result is `(|end - start| / velocity, settlingtime)`.
The `axis` index argument is unused by the source body. -/
def getMovementTime (ax : StageAxis) (cfg : AxisConfig) (_axisIndex : ℕ)
    (start stop : ℚ) : ℚ × ℚ :=
  let dt := cfg.settlingtime.getD 10
  let vel :=
    match ax.velocity with
    | some v => v
    | none => cfg.velocity.getD 1000
  (|stop - start| / vel, dt)

/-- A stage axis with no device-reported velocity. -/
def axW : StageAxis := ⟨none⟩

/-- An empty configuration: both parameters fall back to their defaults
(velocity 1000, settling time 10). -/
def cfgW : AxisConfig := ⟨none, none⟩

end MicroscopeStageAxis

namespace Cockpit

/-- The source's accumulator update `if m < y then y else m` is the binary
maximum. -/
lemma ite_lt_eq_max (m y : ℚ) : (if m < y then y else m) = max m y := by
  rcases lt_or_le m y with h | h
  · rw [if_pos h, max_eq_right h.le]
  · rw [if_neg (not_lt.mpr h), max_eq_left h]

/-- Folding `addAction` at a fixed timestamp over a list appends the
corresponding entries. -/
lemma foldl_addAction_eq {α : Type} (c : ℚ) (tg : α → Resource)
    (pl : α → Payload) (xs : List α) : ∀ t : ActionTable,
    xs.foldl (fun tb a => addAction tb c (tg a) (pl a)) t
      = t ++ xs.map (fun a => ⟨c, tg a, pl a⟩) := by
  induction xs with
  | nil => intro t; simp
  | cons x xs ih =>
      intro t
      rw [List.foldl_cons, ih, List.map_cons, addAction]
      simp

/-- A fold of binary maxima never drops below its accumulator. -/
lemma le_foldl_max {α : Type} (f : α → ℚ) (xs : List α) :
    ∀ a : ℚ, a ≤ xs.foldl (fun m x => max m (f x)) a := by
  induction xs with
  | nil => intro a; simp
  | cons x xs ih =>
      intro a
      calc a ≤ max a (f x) := le_max_left _ _
        _ ≤ _ := ih _

/-- Bound monotonicity of the construction invariant. -/
lemma Inv.mono {c d : ℚ} {t : ActionTable} (h : Inv c t) (hcd : c ≤ d) :
    Inv d t :=
  ⟨h.1, fun e he => (h.2 e he).trans hcd⟩

/-- A list of entries all timestamped `d` is internally non-decreasing. -/
lemma pairwise_of_const_time (d : ℚ) (es : List ActionEntry)
    (hes : ∀ e ∈ es, e.time = d) :
    es.Pairwise (fun a b => a.time ≤ b.time) := by
  induction es with
  | nil => exact List.Pairwise.nil
  | cons x xs ih =>
      refine List.Pairwise.cons (fun b hb => ?_) (ih fun e he => hes e (by simp [he]))
      rw [hes x (by simp), hes b (by simp [hb])]

/-- Appending a block of entries all timestamped at the (possibly
advanced) cursor preserves the invariant. -/
lemma Inv.append {c d : ℚ} {t : ActionTable} (h : Inv c t) (hcd : c ≤ d)
    (es : List ActionEntry) (hes : ∀ e ∈ es, e.time = d) :
    Inv d (t ++ es) := by
  refine ⟨List.pairwise_append.mpr ⟨h.1, pairwise_of_const_time d es hes, ?_⟩, ?_⟩
  · intro a ha b hb
    rw [hes b hb]
    exact (h.2 a ha).trans hcd
  · intro e he
    rcases List.mem_append.mp he with he | he
    · exact (h.2 e he).trans hcd
    · exact (hes e he).le

/-- Appending a single entry at the advanced cursor preserves the
invariant. -/
lemma Inv.addAction {c d : ℚ} {t : ActionTable} (h : Inv c t) (hcd : c ≤ d)
    (r : Resource) (pl : Payload) : Inv d (addAction t d r pl) :=
  h.append hcd [⟨d, r, pl⟩] (by simp)

/-- The camera pass of `expose` computes the two fold-maxima: largest
acquisition time and largest ready time, both read from the incoming
table. -/
lemma exposeAcc_eq (t : ActionTable) (cams : List CameraSpec) : ∀ a b : ℚ,
    cams.foldl (fun acc cam =>
      (if acc.1 < cam.exposureTime + cam.timeBetweenExposures
        then cam.exposureTime + cam.timeBetweenExposures else acc.1,
       if acc.2 < getTimeWhenCameraCanExpose t cam
        then getTimeWhenCameraCanExpose t cam else acc.2)) (a, b)
    = (cams.foldl (fun m cam => max m (cam.exposureTime + cam.timeBetweenExposures)) a,
       cams.foldl (fun m cam => max m (getTimeWhenCameraCanExpose t cam)) b) := by
  induction cams with
  | nil => intro a b; simp
  | cons cam cams ih =>
      intro a b
      simp only [List.foldl_cons]
      rw [ih, ite_lt_eq_max, ite_lt_eq_max]

/-- The table produced by `expose`: the incoming table followed by one
digital trigger at the cursor per light, then one per camera. -/
lemma expose_table (lights : List ℕ) (c : ℚ) (cams : List CameraSpec)
    (t : ActionTable) (counts : ℕ → ℕ) :
    (expose lights c cams t counts).2.1
      = t ++ lights.map (fun l => ⟨c, Resource.light l, Payload.setDigital true⟩)
          ++ cams.map (fun cam => ⟨c, Resource.camera cam.id, Payload.setDigital true⟩) := by
  simp only [expose, foldl_addAction_eq]

/-- The time returned by `expose` is the maximum of the largest ready time
and the cursor advanced by the largest acquisition time. -/
lemma expose_fst (lights : List ℕ) (c : ℚ) (cams : List CameraSpec)
    (t : ActionTable) (counts : ℕ → ℕ) :
    (expose lights c cams t counts).1
      = max (cams.foldl (fun m cam => max m (getTimeWhenCameraCanExpose t cam)) 0)
            (c + cams.foldl (fun m cam => max m (cam.exposureTime + cam.timeBetweenExposures)) 0) := by
  simp only [expose, exposeAcc_eq]

/-- `expose` never returns a time before the cursor it was given. -/
lemma le_expose_fst (lights : List ℕ) (c : ℚ) (cams : List CameraSpec)
    (t : ActionTable) (counts : ℕ → ℕ) :
    c ≤ (expose lights c cams t counts).1 := by
  rw [expose_fst]
  refine le_trans ?_ (le_max_right _ _)
  exact le_add_of_nonneg_right (le_foldl_max _ _ 0)

/-- `expose` preserves the construction invariant at its returned time. -/
lemma expose_inv (lights : List ℕ) (c : ℚ) (cams : List CameraSpec)
    (t : ActionTable) (counts : ℕ → ℕ) (h : Inv c t) :
    Inv (expose lights c cams t counts).1 (expose lights c cams t counts).2.1 := by
  rw [expose_table]
  refine Inv.mono ?_ (le_expose_fst lights c cams t counts)
  rw [List.append_assoc]
  refine h.append le_rfl _ ?_
  intro e he
  rcases List.mem_append.mp he with he | he <;>
    · obtain ⟨x, hx, rfl⟩ := List.mem_map.mp he
      rfl

/-- A per-step iteration only appends entries timestamped at the incoming
cursor. -/
lemma seqStep_table (p : Plan) (st : GenState) (i : ℕ) :
    ∃ rest, (seqStep p st i).table = st.table ++ rest
      ∧ ∀ e ∈ rest, e.time = st.cur := by
  rcases hs : p.slmClients with _ | slm <;> rcases hr : p.rotorClients with _ | rot <;>
    · simp only [seqStep, hs, hr, foldl_addAction_eq, expose_table, List.append_assoc]
      refine ⟨_, rfl, ?_⟩
      intro e he
      simp only [List.mem_append, List.mem_map] at he
      aesop

/-- A per-step iteration never moves the cursor backwards. -/
lemma le_seqStep_cur (p : Plan) (st : GenState) (i : ℕ) :
    st.cur ≤ (seqStep p st i).cur := by
  simp only [seqStep]
  exact le_trans (le_expose_fst _ _ _ _ _)
    (le_add_of_nonneg_right (by norm_num))

/-- A per-step iteration touches neither the previous altitude nor the
query trace. -/
lemma seqStep_keeps (p : Plan) (st : GenState) (i : ℕ) :
    (seqStep p st i).prevAlt = st.prevAlt ∧ (seqStep p st i).zQueries = st.zQueries :=
  ⟨rfl, rfl⟩

/-- A per-step iteration preserves the construction invariant. -/
lemma seqStep_inv (p : Plan) (st : GenState) (i : ℕ)
    (h : Inv st.cur st.table) :
    Inv (seqStep p st i).cur (seqStep p st i).table := by
  obtain ⟨rest, htab, hrest⟩ := seqStep_table p st i
  rw [htab]
  exact (h.append le_rfl rest hrest).mono (le_seqStep_cur p st i)

/-- The per-step loop preserves the construction invariant. -/
lemma seqLoop_inv (p : Plan) (l : List ℕ) :
    ∀ st : GenState, Inv st.cur st.table →
      Inv (l.foldl (seqStep p) st).cur (l.foldl (seqStep p) st).table := by
  induction l with
  | nil => intro st h; exact h
  | cons i l ih => intro st h; exact ih _ (seqStep_inv p st i h)

/-- The per-step loop only appends entries at or after the incoming
cursor, and never moves the cursor backwards. -/
lemma seqLoop_spec (p : Plan) (l : List ℕ) :
    ∀ st : GenState,
      (∃ rest, (l.foldl (seqStep p) st).table = st.table ++ rest
        ∧ ∀ e ∈ rest, st.cur ≤ e.time)
      ∧ st.cur ≤ (l.foldl (seqStep p) st).cur := by
  induction l with
  | nil => intro st; exact ⟨⟨[], by simp, by intro e he; simp at he⟩, le_rfl⟩
  | cons i l ih =>
      intro st
      obtain ⟨⟨rest2, htab2, hrest2⟩, hcur2⟩ := ih (seqStep p st i)
      obtain ⟨rest1, htab1, hrest1⟩ := seqStep_table p st i
      refine ⟨⟨rest1 ++ rest2, ?_, ?_⟩, ?_⟩
      · rw [List.foldl_cons, htab2, htab1, List.append_assoc]
      · intro e he
        rcases List.mem_append.mp he with h | h
        · exact (hrest1 e h).ge
        · exact (le_seqStep_cur p st i).trans (hrest2 e h)
      · exact (le_seqStep_cur p st i).trans hcur2

/-- A slice iteration preserves the construction invariant, provided the
motion oracle reports non-negative times. -/
lemma sliceIter_inv (p : Plan) (zp : Positioner)
    (hz : ∀ a b, 0 ≤ (zp.movementTime a b).1 ∧ 0 ≤ (zp.movementTime a b).2)
    (st : GenState) (zi : ℕ) (h : Inv st.cur st.table) :
    Inv (sliceIter p zp st zi).cur (sliceIter p zp st zi).table := by
  rcases hpa : st.prevAlt with _ | prev
  · simp only [sliceIter, hpa]
    exact (seqLoop_inv p _ _
      ((h.addAction (le_add_of_nonneg_right le_rfl) Resource.zPos _).mono
        (le_add_of_nonneg_right le_rfl))).addAction le_rfl _ _
  · simp only [sliceIter, hpa]
    exact (seqLoop_inv p _ _
      ((h.addAction (le_add_of_nonneg_right (hz _ _).1) Resource.zPos _).mono
        (le_add_of_nonneg_right (hz _ _).2))).addAction le_rfl _ _

/-- The Z-slice loop preserves the construction invariant. -/
lemma sliceLoop_inv (p : Plan) (zp : Positioner)
    (hz : ∀ a b, 0 ≤ (zp.movementTime a b).1 ∧ 0 ≤ (zp.movementTime a b).2)
    (l : List ℕ) :
    ∀ st : GenState, Inv st.cur st.table →
      Inv (l.foldl (sliceIter p zp) st).cur (l.foldl (sliceIter p zp) st).table := by
  induction l with
  | nil => intro st h; exact h
  | cons z l ih => intro st h; exact ih _ (sliceIter_inv p zp hz st z h)

/-- The reset-phase cursor fold is a fold of binary maxima. -/
lemma resetCur_eq_max (xs : List CameraSpec) : ∀ a : ℚ,
    xs.foldl (fun c cam => if c < cam.resetDuration then cam.resetDuration else c) a
      = xs.foldl (fun c cam => max c cam.resetDuration) a := by
  induction xs with
  | nil => intro a; rfl
  | cons x xs ih =>
      intro a
      simp only [List.foldl_cons]
      rw [ih, ite_lt_eq_max]

/-- The initial state satisfies the construction invariant. -/
lemma initState_inv (p : Plan) : Inv (initState p).cur (initState p).table := by
  by_cases hc : (p.cameras.filter (fun c => !c.isReady)).isEmpty
  · simp only [initState, if_pos hc]
    exact ⟨List.Pairwise.nil, by intro e he; simp at he⟩
  · simp only [initState, if_neg hc, resetCams, foldl_addAction_eq, List.nil_append]
    have hcur : (0 : ℚ) ≤ (p.cameras.filter (fun c => !c.isReady)).foldl
        (fun c cam => if c < cam.resetDuration then cam.resetDuration else c) 0 := by
      rw [resetCur_eq_max]
      exact le_foldl_max _ _ 0
    refine ⟨pairwise_of_const_time 0 _ ?_, ?_⟩
    · intro e he
      obtain ⟨x, _, rfl⟩ := List.mem_map.mp he
      rfl
    · intro e he
      obtain ⟨x, _, rfl⟩ := List.mem_map.mp he
      exact hcur

/-- The full table produced by `generateActions` has non-decreasing
timestamps in append order, provided the motion oracle reports
non-negative times. -/
lemma generateActions_mono (p : Plan) (zp : Positioner)
    (hp : p.zPositioner = some zp)
    (hz : ∀ a b, 0 ≤ (zp.movementTime a b).1 ∧ 0 ≤ (zp.movementTime a b).2) :
    ∀ r, generateActions p = some r →
      r.table.Pairwise (fun a b => a.time ≤ b.time) := by
  intro r hr
  simp only [generateActions, hp] at hr
  injection hr with hr
  subst hr
  simp only [returnPhase]
  have h0 : Inv (runLoop p zp (initState p)).cur (runLoop p zp (initState p)).table := by
    simp only [runLoop]
    exact sliceLoop_inv p zp hz _ _ (initState_inv p)
  have h1 := h0.addAction
    (le_add_of_nonneg_right (hz p.zHeight 0).1) Resource.zPos
    (Payload.moveAbsolute p.zStart)
  exact (h1.addAction
    (le_trans (le_add_of_nonneg_right (hz p.zHeight 0).2) (le_max_left _ _))
    Resource.zPos (Payload.moveAbsolute p.zStart)).1

/- Concrete evaluations. -/

/-- Ready query for `camC4` against the one-entry table of the first step:
no camera entry yet, so 0. -/
lemma readyC4_step0 : getTimeWhenCameraCanExpose
    [⟨0, Resource.zPos, Payload.moveAbsolute 0⟩] (⟨0, 50, 10, true, 0⟩ : CameraSpec) = 0 := by
  simp [getTimeWhenCameraCanExpose, lastActionTimeFor]

/-- Ready query for `camC4` after the first trigger at time 0:
`0 + 50 + 10 = 60`. -/
lemma readyC4_step1 : getTimeWhenCameraCanExpose
    [⟨0, Resource.zPos, Payload.moveAbsolute 0⟩,
     ⟨0, Resource.light 0, Payload.setDigital true⟩,
     ⟨0, Resource.camera 0, Payload.setDigital true⟩]
    (⟨0, 50, 10, true, 0⟩ : CameraSpec) = 60 := by
  simp [getTimeWhenCameraCanExpose, lastActionTimeFor]
  norm_num

/-- Full evaluation of the planner on `planC1`. -/
lemma gen_planC1 : generateActions planC1 = some resC1 := by
  norm_num [generateActions, planC1, zpC1, returnPhase, runLoop, numZSlices,
    initState, sliceIter, seqStep, expose, addAction, resetCams,
    cameraReadyTimeOf, resC1, tblC1, List.range_succ]

/-- State after the first slice iteration on `planC1`: the cursor is still
0 and the previous altitude is recorded as 0. -/
lemma sliceC1_state :
    sliceIter planC1 zpC1 (initState planC1) 0
      = ⟨0, [⟨0, Resource.zPos, Payload.moveAbsolute 0⟩,
             ⟨0, Resource.zPos, Payload.moveAbsolute 0⟩], fun _ => 0, some 0, []⟩ := by
  norm_num [sliceIter, initState, planC1, seqStep, expose, addAction, zpC1]

/-- Full evaluation of the planner on `planC4`. -/
lemma gen_planC4 : (generateActions planC4).map GenResult.table = some tblC4 := by
  norm_num [generateActions, planC4, zpC4, returnPhase, runLoop, numZSlices,
    initState, sliceIter, seqStep, expose, addAction, resetCams,
    cameraReadyTimeOf, camC4, mkSequence, tblC4, readyC4_step0, readyC4_step1,
    List.range_succ, List.range_zero]

/-- Full evaluation of the planner on `planC4bad`: the slice loop never
runs, so the table has only the two return-phase holds. -/
lemma gen_planC4bad : (generateActions planC4bad).map GenResult.table = some tblC4bad := by
  norm_num [generateActions, planC4bad, zpC4, returnPhase, runLoop, numZSlices,
    initState, sliceIter, seqStep, expose, addAction, resetCams,
    cameraReadyTimeOf, camC4, mkSequence, tblC4bad, List.range_succ]

/-- Full evaluation of the planner on `planC3`: zero slices, only the
return-phase entries at 20 and 25. -/
lemma gen_planC3 : (generateActions planC3).map GenResult.table
    = some [⟨20, Resource.zPos, Payload.moveAbsolute 0⟩,
            ⟨25, Resource.zPos, Payload.moveAbsolute 0⟩] := by
  norm_num [generateActions, planC3, zpC1, returnPhase, runLoop, numZSlices,
    initState, sliceIter, seqStep, expose, addAction, resetCams,
    cameraReadyTimeOf, List.range_succ]

/-- Full evaluation of the planner on `planC6`. -/
lemma gen_planC6 : generateActions planC6 = some resC6 := by
  have ht : Int.toNat 2 = 2 := rfl
  norm_num [generateActions, planC6, zpC6, returnPhase, runLoop, numZSlices,
    initState, sliceIter, seqStep, expose, addAction, resetCams,
    cameraReadyTimeOf, resC6, tblC6, ht, List.range_succ]

/- Claim theorems. -/

/-- C1 (counterexample): on `planC1`, slice 1 starts at cursor 0 with a
previous altitude of 0 and the oracle reporting `(20, 5)`, yet the table
contains no `MoveAbsolute 10` entry at timestamp 0 — the move entry is
appended at timestamp 20, the time the move ends. -/
theorem cryosim_zmove_pre_cursor_cex :
    zpC1.movementTime 0 10 = (20, 5)
    ∧ (sliceIter planC1 zpC1 (initState planC1) 0).cur = 0
    ∧ (sliceIter planC1 zpC1 (initState planC1) 0).prevAlt = some 0
    ∧ (generateActions planC1).map GenResult.table = some tblC1
    ∧ (∀ e ∈ tblC1, ¬(e.time = 0 ∧ e.payload = Payload.moveAbsolute 10))
    ∧ (⟨20, Resource.zPos, Payload.moveAbsolute 10⟩ : ActionEntry) ∈ tblC1 := by
  refine ⟨rfl, ?_, ?_, ?_, ?_, ?_⟩
  · rw [sliceC1_state]
  · rw [sliceC1_state]
  · rw [gen_planC1]
    rfl
  · intro e he
    simp only [tblC1, List.mem_cons, List.not_mem_nil, or_false] at he
    rcases he with rfl | rfl | rfl | rfl | rfl | rfl <;> norm_num
  · simp [tblC1]

/-- C1 (amended): in a slice iteration with a previous altitude, the
`MoveAbsolute` entry for the move is appended at `cursor + moveTime` (the
time the move ends, not the time it begins), and every entry appended
afterwards in that iteration carries a timestamp of at least
`cursor + moveTime + settleTime`. -/
theorem cryosim_zmove_at_move_end (p : Plan) (zp : Positioner) (st : GenState)
    (zi : ℕ) (prev : ℚ) (h : st.prevAlt = some prev) :
    ∃ rest, (sliceIter p zp st zi).table
        = st.table
          ++ ⟨st.cur + (zp.movementTime prev (p.zStart + p.sliceHeight * (zi : ℚ))).1,
              Resource.zPos,
              Payload.moveAbsolute (p.zStart + p.sliceHeight * (zi : ℚ))⟩
          :: rest
      ∧ ∀ e ∈ rest,
          st.cur + (zp.movementTime prev (p.zStart + p.sliceHeight * (zi : ℚ))).1
            + (zp.movementTime prev (p.zStart + p.sliceHeight * (zi : ℚ))).2 ≤ e.time := by
  have hmain : ∀ S : GenState,
      S.table = addAction st.table
        (st.cur + (zp.movementTime prev (p.zStart + p.sliceHeight * (zi : ℚ))).1)
        Resource.zPos (Payload.moveAbsolute (p.zStart + p.sliceHeight * (zi : ℚ))) →
      S.cur = st.cur + (zp.movementTime prev (p.zStart + p.sliceHeight * (zi : ℚ))).1
        + (zp.movementTime prev (p.zStart + p.sliceHeight * (zi : ℚ))).2 →
      ∃ rest,
        addAction (List.foldl (seqStep p) S (List.range p.sequence.length)).table
            (List.foldl (seqStep p) S (List.range p.sequence.length)).cur
            Resource.zPos (Payload.moveAbsolute (p.zStart + p.sliceHeight * (zi : ℚ)))
          = st.table
            ++ ⟨st.cur + (zp.movementTime prev (p.zStart + p.sliceHeight * (zi : ℚ))).1,
                Resource.zPos,
                Payload.moveAbsolute (p.zStart + p.sliceHeight * (zi : ℚ))⟩
            :: rest
          ∧ ∀ e ∈ rest,
              st.cur + (zp.movementTime prev (p.zStart + p.sliceHeight * (zi : ℚ))).1
                + (zp.movementTime prev (p.zStart + p.sliceHeight * (zi : ℚ))).2 ≤ e.time := by
    intro S hT hc
    obtain ⟨⟨rest1, htab, hrest⟩, hcur⟩ := seqLoop_spec p (List.range p.sequence.length) S
    refine ⟨rest1
        ++ [⟨(List.foldl (seqStep p) S (List.range p.sequence.length)).cur,
             Resource.zPos, Payload.moveAbsolute (p.zStart + p.sliceHeight * (zi : ℚ))⟩],
      ?_, ?_⟩
    · rw [addAction, htab, hT]
      simp [addAction]
    · intro e he
      rcases List.mem_append.mp he with h1 | h1
      · exact hc ▸ hrest e h1
      · have he2 : e = ⟨(List.foldl (seqStep p) S (List.range p.sequence.length)).cur,
            Resource.zPos, Payload.moveAbsolute (p.zStart + p.sliceHeight * (zi : ℚ))⟩ := by
          simpa using h1
        rw [he2]
        exact hc ▸ hcur
  simp only [sliceIter, h]
  exact hmain _ rfl rfl

/-- C1 (amended) witness: the slice-move decomposition evaluated at the
concrete state `stC1W` and oracle `zpC1`. -/
theorem cryosim_zmove_at_move_end_witness :
    ∃ rest, (sliceIter planC1 zpC1 stC1W 1).table
        = stC1W.table
          ++ ⟨stC1W.cur + (zpC1.movementTime 0 (planC1.zStart + planC1.sliceHeight * ((1 : ℕ) : ℚ))).1,
              Resource.zPos,
              Payload.moveAbsolute (planC1.zStart + planC1.sliceHeight * ((1 : ℕ) : ℚ))⟩
          :: rest
      ∧ ∀ e ∈ rest,
          stC1W.cur + (zpC1.movementTime 0 (planC1.zStart + planC1.sliceHeight * ((1 : ℕ) : ℚ))).1
            + (zpC1.movementTime 0 (planC1.zStart + planC1.sliceHeight * ((1 : ℕ) : ℚ))).2 ≤ e.time :=
  cryosim_zmove_at_move_end planC1 zpC1 stC1W 1 0 rfl

/-- C2: `expose` appends a `SetDigital(true)` action at exactly the given
cursor for every light and for every camera (speculatively, even when a
camera is still busy), and returns `max(L, cursor + D)` where `D` is the
fold-maximum over the cameras of `exposure + gap` and `L` is the
fold-maximum over the cameras of the earliest-available time read from the
table before the new triggers were appended. -/
theorem cryosim_expose_spec (lights : List ℕ) (c : ℚ) (cams : List CameraSpec)
    (t : ActionTable) (counts : ℕ → ℕ) :
    (expose lights c cams t counts).2.1
      = t ++ lights.map (fun l => ⟨c, Resource.light l, Payload.setDigital true⟩)
          ++ cams.map (fun cam => ⟨c, Resource.camera cam.id, Payload.setDigital true⟩)
    ∧ (expose lights c cams t counts).1
      = max (listMax0 (cams.map (fun cam => getTimeWhenCameraCanExpose t cam)))
            (c + listMax0 (cams.map (fun cam => cam.exposureTime + cam.timeBetweenExposures))) := by
  refine ⟨expose_table lights c cams t counts, ?_⟩
  simp only [expose_fst, listMax0, List.foldl_map]

/-- C3 (counterexample): `planC3` has `zHeight = 0` yet its slice count is
0, not 1; its table holds only the two return-phase entries. -/
theorem cryosim_slice_count_zero_height_cex :
    planC3.zHeight = 0 ∧ numZSlices planC3 = 0
    ∧ (generateActions planC3).map GenResult.table
        = some [⟨20, Resource.zPos, Payload.moveAbsolute 0⟩,
                ⟨25, Resource.zPos, Payload.moveAbsolute 0⟩]
    ∧ numZSlices planC3 ≠ 1 := by
  refine ⟨rfl, ?_, gen_planC3, ?_⟩
  · norm_num [numZSlices, planC3]
  · norm_num [numZSlices, planC3]

/-- C3 (amended): with a positive slice height, the slice count is 0 when
`zHeight = 0` (not 1), and `⌈zHeight / sliceHeight⌉ + 1` when
`zHeight > 1e-6`. -/
theorem cryosim_slice_count (p : Plan) (hs : 0 < p.sliceHeight) :
    (p.zHeight = 0 → numZSlices p = 0)
    ∧ (p.zHeight > 1 / 1000000 →
        (numZSlices p : ℤ) = ⌈p.zHeight / p.sliceHeight⌉ + 1) := by
  constructor
  · intro h0
    norm_num [numZSlices, h0]
  · intro h1
    have hpos : (0 : ℚ) < p.zHeight / p.sliceHeight :=
      div_pos (lt_trans (by norm_num) h1) hs
    have hceil : 0 < ⌈p.zHeight / p.sliceHeight⌉ := Int.ceil_pos.mpr hpos
    rw [numZSlices, if_pos h1]
    push_cast
    rw [Int.toNat_of_nonneg hceil.le]

/-- C3 (amended) witness: slice counts of the concrete plans `planC3`
(zHeight 0) and `planC6` (zHeight 2, sliceHeight 1). -/
theorem cryosim_slice_count_witness :
    numZSlices planC3 = 0
    ∧ (numZSlices planC6 : ℤ) = ⌈planC6.zHeight / planC6.sliceHeight⌉ + 1 :=
  ⟨(cryosim_slice_count planC3 (by norm_num [planC3])).1 rfl,
   (cryosim_slice_count planC6 (by norm_num [planC6])).2 (by norm_num [planC6])⟩

/-- C4 (counterexample): the scenario taken literally with `zHeight = 0`
produces a table with no camera trigger at all — not 2 trigger pairs. -/
theorem cryosim_scenario_zero_height_cex :
    planC4bad.zHeight = 0
    ∧ (generateActions planC4bad).map GenResult.table = some tblC4bad
    ∧ (tblC4bad.filter isCameraEntry).length = 0
    ∧ (0 : ℕ) ≠ 2 := by
  refine ⟨rfl, gen_planC4bad, rfl, by norm_num⟩

/-- C4 (amended): the scenario with one Z slice realised as
`zHeight = sliceHeight = 1e-6`: exactly two light-plus-camera trigger
pairs at timestamps 0 and 65, and a final hold at 130 ≥ 125. -/
theorem cryosim_scenario_two_triggers :
    (generateActions planC4).map GenResult.table = some tblC4
    ∧ tblC4.filter isCameraEntry
        = [⟨0, Resource.camera 0, Payload.setDigital true⟩,
           ⟨65, Resource.camera 0, Payload.setDigital true⟩]
    ∧ tblC4.filter isLightEntry
        = [⟨0, Resource.light 0, Payload.setDigital true⟩,
           ⟨65, Resource.light 0, Payload.setDigital true⟩]
    ∧ tblC4.getLast? = some ⟨130, Resource.zPos, Payload.moveAbsolute 0⟩
    ∧ (125 : ℚ) ≤ 130 :=
  ⟨gen_planC4, rfl, rfl, rfl, by norm_num⟩

/-- C5: for every plan whose motion oracle reports non-negative move and
settle times, the table produced by `generateActions` has non-decreasing
timestamps per resource, read in append order. -/
theorem cryosim_per_resource_monotone (p : Plan) (zp : Positioner)
    (hp : p.zPositioner = some zp)
    (hz : ∀ a b, 0 ≤ (zp.movementTime a b).1 ∧ 0 ≤ (zp.movementTime a b).2)
    (res : Resource) :
    ∀ r, generateActions p = some r →
      (r.table.filter (fun e => e.target == res)).Pairwise
        (fun a b => a.time ≤ b.time) := by
  intro r hr
  exact (generateActions_mono p zp hp hz r hr).sublist (List.filter_sublist _)

/-- C5 witness: per-resource monotonicity of the concrete table of
`planC1` for the Z positioner. -/
theorem cryosim_per_resource_monotone_witness :
    (resC1.table.filter (fun e => e.target == Resource.zPos)).Pairwise
      (fun a b => a.time ≤ b.time) :=
  cryosim_per_resource_monotone planC1 zpC1 rfl
    (fun a b => ⟨by norm_num [zpC1], by norm_num [zpC1]⟩)
    Resource.zPos resC1 gen_planC1

/-- C6 (counterexample): on `planC6` (`zStart = 5`, `zHeight = 2`,
`sliceHeight = 1`, final slice altitude 7) the return-phase motion query
is `(zHeight, 0) = (2, 0)` — not `(final altitude, zStart) = (7, 5)` as
the claim states. -/
theorem cryosim_return_query_cex :
    (generateActions planC6).map GenResult.zQueries = some [(5, 6), (6, 7), (2, 0)]
    ∧ numZSlices planC6 = 3
    ∧ planC6.zStart + planC6.sliceHeight * ((3 : ℚ) - 1) = 7
    ∧ planC6.zStart = 5
    ∧ ¬((2 : ℚ), (0 : ℚ)) = ((7 : ℚ), (5 : ℚ)) := by
  refine ⟨?_, ?_, by norm_num [planC6], rfl, by norm_num⟩
  · rw [gen_planC6]
    rfl
  · simp [numZSlices, planC6]
    norm_num

/-- C6 (amended): the return phase queries the motion oracle for the move
from the plan's `zHeight` to 0 (its final recorded query), advances the
cursor by the reported move time, and only then appends the return
`MoveAbsolute` targeting `zStart`, followed by exactly one final hold. -/
theorem cryosim_return_move_spec (p : Plan) (zp : Positioner)
    (hp : p.zPositioner = some zp) :
    ∀ r, generateActions p = some r →
      r.zQueries.getLast? = some (p.zHeight, 0)
      ∧ ∃ last, r.table
          = (runLoop p zp (initState p)).table
            ++ ⟨(runLoop p zp (initState p)).cur + (zp.movementTime p.zHeight 0).1,
                Resource.zPos, Payload.moveAbsolute p.zStart⟩ :: [last] := by
  intro r hr
  simp only [generateActions, hp] at hr
  injection hr with hr
  subst hr
  constructor
  · simp [returnPhase]
  · refine ⟨⟨max ((runLoop p zp (initState p)).cur + (zp.movementTime p.zHeight 0).1
        + (zp.movementTime p.zHeight 0).2)
        (cameraReadyTimeOf p (addAction (runLoop p zp (initState p)).table
          ((runLoop p zp (initState p)).cur + (zp.movementTime p.zHeight 0).1)
          Resource.zPos (Payload.moveAbsolute p.zStart))),
      Resource.zPos, Payload.moveAbsolute p.zStart⟩, ?_⟩
    simp [returnPhase, addAction]

/-- C6 (amended) witness: the return-phase shape evaluated on `planC6`. -/
theorem cryosim_return_move_spec_witness :
    resC6.zQueries.getLast? = some (planC6.zHeight, 0)
    ∧ ∃ last, resC6.table
        = (runLoop planC6 zpC6 (initState planC6)).table
          ++ ⟨(runLoop planC6 zpC6 (initState planC6)).cur
                + (zpC6.movementTime planC6.zHeight 0).1,
              Resource.zPos, Payload.moveAbsolute planC6.zStart⟩ :: [last] :=
  cryosim_return_move_spec planC6 zpC6 rfl resC6 gen_planC6

/-- C7: the stage-axis timing oracle is a pure function returning
`(|end - start| / velocity, settlingtime)` with the device-reported
velocity when available (else the configured default 1000) and the
configured settling time (default 10); for a positive velocity and
non-negative settling time both components are non-negative, and the
result is symmetric in start and end. -/
theorem stage_getMovementTime_spec (ax : MicroscopeStageAxis.StageAxis)
    (cfg : MicroscopeStageAxis.AxisConfig) (i : ℕ) (a b : ℚ)
    (hv : 0 < MicroscopeStageAxis.velOf ax cfg)
    (hs : 0 ≤ cfg.settlingtime.getD 10) :
    MicroscopeStageAxis.getMovementTime ax cfg i a b
      = (|b - a| / MicroscopeStageAxis.velOf ax cfg, cfg.settlingtime.getD 10)
    ∧ 0 ≤ (MicroscopeStageAxis.getMovementTime ax cfg i a b).1
    ∧ 0 ≤ (MicroscopeStageAxis.getMovementTime ax cfg i a b).2
    ∧ MicroscopeStageAxis.getMovementTime ax cfg i a b
      = MicroscopeStageAxis.getMovementTime ax cfg i b a := by
  have h1 : MicroscopeStageAxis.getMovementTime ax cfg i a b
      = (|b - a| / MicroscopeStageAxis.velOf ax cfg, cfg.settlingtime.getD 10) := rfl
  have h2 : MicroscopeStageAxis.getMovementTime ax cfg i b a
      = (|a - b| / MicroscopeStageAxis.velOf ax cfg, cfg.settlingtime.getD 10) := rfl
  refine ⟨h1, ?_, ?_, ?_⟩
  · rw [h1]
    exact div_nonneg (abs_nonneg _) hv.le
  · rw [h1]
    exact hs
  · rw [h1, h2, abs_sub_comm]

/-- C7 witness: the oracle evaluated with no device velocity and an empty
configuration, for the move from 0 to 10 on axis index 2. -/
theorem stage_getMovementTime_spec_witness :
    MicroscopeStageAxis.getMovementTime MicroscopeStageAxis.axW MicroscopeStageAxis.cfgW 2 0 10
      = (|(10 : ℚ) - 0| / MicroscopeStageAxis.velOf MicroscopeStageAxis.axW MicroscopeStageAxis.cfgW,
         MicroscopeStageAxis.cfgW.settlingtime.getD 10)
    ∧ 0 ≤ (MicroscopeStageAxis.getMovementTime MicroscopeStageAxis.axW MicroscopeStageAxis.cfgW 2 0 10).1
    ∧ 0 ≤ (MicroscopeStageAxis.getMovementTime MicroscopeStageAxis.axW MicroscopeStageAxis.cfgW 2 0 10).2
    ∧ MicroscopeStageAxis.getMovementTime MicroscopeStageAxis.axW MicroscopeStageAxis.cfgW 2 0 10
      = MicroscopeStageAxis.getMovementTime MicroscopeStageAxis.axW MicroscopeStageAxis.cfgW 2 10 0 :=
  stage_getMovementTime_spec MicroscopeStageAxis.axW MicroscopeStageAxis.cfgW 2 0 10
    (by norm_num [MicroscopeStageAxis.velOf, MicroscopeStageAxis.axW, MicroscopeStageAxis.cfgW])
    (by norm_num [MicroscopeStageAxis.cfgW])

/-- C8: `generateActions` is deterministic — two runs on equal plans (the
oracle is part of the plan and is a pure function) produce identical
`(timestamp, target, payload)` entry sequences. -/
theorem cryosim_generate_deterministic (p q : Plan) (h : p = q) :
    (generateActions p).map (fun r => r.table.map (fun e => (e.time, e.target, e.payload)))
      = (generateActions q).map (fun r => r.table.map (fun e => (e.time, e.target, e.payload))) := by
  rw [h]

/-- C8 witness: determinism instantiated on `planC1`. -/
theorem cryosim_generate_deterministic_witness :
    (generateActions planC1).map (fun r => r.table.map (fun e => (e.time, e.target, e.payload)))
      = (generateActions planC1).map (fun r => r.table.map (fun e => (e.time, e.target, e.payload))) :=
  cryosim_generate_deterministic planC1 planC1 rfl

/-- C9: `expose` with an empty camera set returns the cursor unchanged
(cursor times are non-negative), appends exactly one `SetDigital(true)`
per configured light at the cursor, appends no camera action, and leaves
the image counters untouched. -/
theorem cryosim_expose_no_cameras (lights : List ℕ) (c : ℚ)
    (t : ActionTable) (counts : ℕ → ℕ) (hc : 0 ≤ c) :
    expose lights c [] t counts
      = (c, t ++ lights.map (fun l => ⟨c, Resource.light l, Payload.setDigital true⟩),
         counts) := by
  simp only [expose, List.foldl_nil, foldl_addAction_eq]
  rw [add_zero, max_eq_right hc]

/-- C9 witness: `expose` with no cameras at cursor 2 and one light. -/
theorem cryosim_expose_no_cameras_witness :
    expose [7] 2 [] [] (fun _ => 0)
      = (2, [] ++ List.map
          (fun l => (⟨2, Resource.light l, Payload.setDigital true⟩ : ActionEntry)) [7],
         fun _ => 0) :=
  cryosim_expose_no_cameras [7] 2 [] (fun _ => 0) (by norm_num)

/-- C10: `generateActions` executes the return phase unconditionally:
without a Z positioner it cannot complete; with one, its result is the
loop table extended by exactly two trailing Z-positioner entries — the
return move to `zStart` at the loop cursor advanced by the reported move
time, then a hold at `max(cursor + settleTime, cameraReadyTime)` — with
the final motion query recorded; and with at most one repetition the
camera-ready time is 0 for any table. -/
theorem cryosim_return_phase_unconditional (p : Plan) :
    (p.zPositioner = none → generateActions p = none)
    ∧ (∀ zp, p.zPositioner = some zp →
        generateActions p = some
          ⟨addAction
              (addAction (runLoop p zp (initState p)).table
                ((runLoop p zp (initState p)).cur + (zp.movementTime p.zHeight 0).1)
                Resource.zPos (Payload.moveAbsolute p.zStart))
              (max ((runLoop p zp (initState p)).cur + (zp.movementTime p.zHeight 0).1
                  + (zp.movementTime p.zHeight 0).2)
                (cameraReadyTimeOf p
                  (addAction (runLoop p zp (initState p)).table
                    ((runLoop p zp (initState p)).cur + (zp.movementTime p.zHeight 0).1)
                    Resource.zPos (Payload.moveAbsolute p.zStart))))
              Resource.zPos (Payload.moveAbsolute p.zStart),
           (runLoop p zp (initState p)).counts,
           (runLoop p zp (initState p)).zQueries ++ [(p.zHeight, 0)]⟩)
    ∧ (p.numReps ≤ 1 → ∀ t : ActionTable, cameraReadyTimeOf p t = 0) := by
  refine ⟨?_, ?_, ?_⟩
  · intro h
    simp [generateActions, h]
  · intro zp h
    simp only [generateActions, h, returnPhase]
  · intro h t
    rw [cameraReadyTimeOf, if_neg (by omega)]

/-- C10 witness: a plan without a Z positioner yields no table, and the
camera-ready time of a single-repetition plan is 0. -/
theorem cryosim_return_phase_unconditional_witness :
    generateActions planNoZ = none
    ∧ cameraReadyTimeOf planC3 [] = 0 :=
  ⟨(cryosim_return_phase_unconditional planNoZ).1 rfl,
   (cryosim_return_phase_unconditional planC3).2.2 (by norm_num [planC3]) []⟩

end Cockpit
